import Mathlib

/-!
The editing-history engine of `PhotoEditor` (src/public/scripts/app.js)

A shallow embedding of the history and stroke-lifecycle methods of the
`PhotoEditor` class: `saveState`, `restoreState`, `undo`, `redo`,
`startDrawing` and `stopDrawing`, together with the fields they read and
write; of its remote transforms (`uploadFile`, `loadImageToCanvas`,
`applyFilter`, `resizeImage`, `rotateImage`) and zoom controls; and of the
upload `fileFilter` of src/server.js.

Modelling conventions.

* JavaScript numbers that hold array indices (`historyStep`, the `step`
  argument of `restoreState`) are integers (`Int`); `history.length` is a
  natural number cast to `Int`.
* The canvas is represented by the string that `canvas.toDataURL()` returns
  for its present pixel content, so a snapshot is a `String`.
* Numbers read from the pointer event and from the property sliders are exact
  rationals; they only flow into the drawing style and the path origin.
* Every method returns an `Outcome`: the editor after the call and the
  exception the call threw, if any.  A handler that throws leaves the
  assignments made before the throw in place, as in JavaScript.
* DOM-only effects (`updateHistoryPanel`, `updateCanvasInfo`, alerts) do not
  touch any modelled field and are omitted.
-/

set_option autoImplicit false

/-- Exceptions of the JavaScript runtime that the modelled methods can raise.
`rangeError` is the `RangeError: Invalid array length` of an assignment of a
negative number to `Array.prototype.length`. -/
inductive JsError where
  | rangeError : JsError
  deriving DecidableEq, Repr

/-- The part of the 2D rendering context that `startDrawing` and `stopDrawing`
assign; each field holds the value last assigned to it. `pathStart` is the
point of the last `beginPath(); moveTo(x, y)`. -/
structure Ctx where
  globalCompositeOperation : String
  globalAlpha : ℚ
  strokeStyle : String
  lineWidth : ℚ
  lineCap : String
  pathStart : Option (ℚ × ℚ)
  deriving DecidableEq

/-- What `startDrawing(e)` reads from its event and from the page: the pointer
position, the bounding rectangle of the canvas and the values of the
`colorPicker`, `brushSize` and `opacity` inputs. -/
structure MouseEnv where
  clientX : ℚ
  clientY : ℚ
  rectLeft : ℚ
  rectTop : ℚ
  colorPicker : String
  brushSize : ℚ
  opacity : ℚ
  deriving DecidableEq

/-- The fields of a `PhotoEditor` instance (constructor, lines 2-17) that the
history engine and the stroke lifecycle use. `canvas` is the value of
`this.canvas.toDataURL()`; `imageSrc` records, oldest first, the `src` given to
each `Image` object that `restoreState` creates, i.e. the snapshots selected
for redraw. -/
structure PhotoEditor where
  currentTool : String
  isDrawing : Bool
  currentFilename : Option String
  history : List String
  historyStep : Int
  zoom : ℚ
  canvas : String
  ctx : Ctx
  imageSrc : List String
  deriving DecidableEq

/-- The result of a method call: the editor afterwards and the exception
thrown, if any. -/
structure Outcome where
  state : PhotoEditor
  thrown : Option JsError
  deriving DecidableEq

namespace PhotoEditor

/-- A fresh 2D context: the defaults of the Canvas API. -/
def freshCtx : Ctx :=
  { globalCompositeOperation := "source-over"
    globalAlpha := 1
    strokeStyle := "#000000"
    lineWidth := 1
    lineCap := "butt"
    pathStart := none }

/-- The editor built by `constructor()` (lines 2-17) followed by
`setupCanvas()`; `blank` is the serialization of the white 800 x 600 canvas. -/
def init (blank : String) : PhotoEditor :=
  { currentTool := "select"
    isDrawing := false
    currentFilename := none
    history := []
    historyStep := -1
    zoom := 1
    canvas := blank
    ctx := freshCtx
    imageSrc := [] }

/-- Method `saveState()` (lines 415-422):
```
this.historyStep++;
if (this.historyStep < this.history.length) {
    this.history.length = this.historyStep;
}
this.history.push(this.canvas.toDataURL());
```
Assigning a negative `length` throws a `RangeError` before the push. -/
def saveState (e : PhotoEditor) : Outcome :=
  let e1 := { e with historyStep := e.historyStep + 1 }
  if e1.historyStep < (e1.history.length : Int) then
    if e1.historyStep < 0 then
      { state := e1, thrown := some JsError.rangeError }
    else
      { state := { e1 with history := e1.history.take e1.historyStep.toNat ++ [e1.canvas] }
        thrown := none }
  else
    { state := { e1 with history := e1.history ++ [e1.canvas] }, thrown := none }

/-- Method `restoreState(step)` (lines 440-451):
```
if (step >= 0 && step < this.history.length) {
    this.historyStep = step;
    const img = new Image();
    img.onload = ...;
    img.src = this.history[step];
}
```
The `onload` callback runs later and only redraws the canvas. -/
def restoreState (e : PhotoEditor) (step : Int) : Outcome :=
  if h : 0 ≤ step ∧ step < (e.history.length : Int) then
    { state := { e with
        historyStep := step
        imageSrc := e.imageSrc ++ [e.history.get ⟨step.toNat, by omega⟩] }
      thrown := none }
  else
    { state := e, thrown := none }

/-- Method `undo()` (lines 453-457). -/
def undo (e : PhotoEditor) : Outcome :=
  if e.historyStep > 0 then restoreState e (e.historyStep - 1)
  else { state := e, thrown := none }

/-- Method `redo()` (lines 459-463). -/
def redo (e : PhotoEditor) : Outcome :=
  if e.historyStep < (e.history.length : Int) - 1 then restoreState e (e.historyStep + 1)
  else { state := e, thrown := none }

/-- Method `startDrawing(e)` (lines 367-388). -/
def startDrawing (e : PhotoEditor) (m : MouseEnv) : Outcome :=
  if e.currentTool = "brush" ∨ e.currentTool = "eraser" then
    let x := (m.clientX - m.rectLeft) / e.zoom
    let y := (m.clientY - m.rectTop) / e.zoom
    let c1 : Ctx := { e.ctx with pathStart := some (x, y) }
    let c2 : Ctx :=
      if e.currentTool = "eraser" then
        { c1 with globalCompositeOperation := "destination-out" }
      else
        { c1 with globalCompositeOperation := "source-over", strokeStyle := m.colorPicker }
    let c3 : Ctx :=
      { c2 with lineWidth := m.brushSize, lineCap := "round", globalAlpha := m.opacity / 100 }
    { state := { e with isDrawing := true, ctx := c3 }, thrown := none }
  else
    { state := e, thrown := none }

/-- Method `stopDrawing()` (lines 406-413), the handler of both `mouseup` and
`mouseout`. -/
def stopDrawing (e : PhotoEditor) : Outcome :=
  if e.isDrawing then
    saveState { e with
      isDrawing := false
      ctx := { e.ctx with globalCompositeOperation := "source-over", globalAlpha := 1 } }
  else
    { state := e, thrown := none }

/-- Any change of the pixel content of the canvas (a painted stroke, the
`onload` redraw of a restored snapshot): afterwards `toDataURL()` returns
`c`. -/
def paint (e : PhotoEditor) (c : String) : PhotoEditor :=
  { e with canvas := c }

/-- A commit of snapshot `s`: `saveState()` called when the canvas serializes
to `s`. -/
def commit (e : PhotoEditor) (s : String) : Outcome :=
  saveState (paint e s)

/-- The history position invariant: the history is empty with
`historyStep = -1`, or `0 ≤ historyStep < history.length`. -/
def HistoryInv (e : PhotoEditor) : Prop :=
  (e.history = [] ∧ e.historyStep = -1) ∨
    (0 ≤ e.historyStep ∧ e.historyStep < (e.history.length : Int))

instance (e : PhotoEditor) : Decidable (HistoryInv e) := by
  unfold HistoryInv; infer_instance

/-- Method `undo()` called `k` times in a row. -/
def undoTimes : Nat → PhotoEditor → PhotoEditor
  | 0, e => e
  | k + 1, e => undoTimes k (undo e).state

/-- The snapshots of `ss` committed one after the other. -/
def commitAll (e : PhotoEditor) (ss : List String) : PhotoEditor :=
  ss.foldl (fun acc s => (commit acc s).state) e

/-- The calls that act on the history, as events of a session. -/
inductive Action where
  | saveState : Action
  | undo : Action
  | redo : Action
  | restoreState : Int → Action
  | paint : String → Action
  deriving DecidableEq

/-- The editor after one event. An exception thrown by a handler is reported
by the browser and the session goes on from the state reached. -/
def Action.apply (e : PhotoEditor) : Action → PhotoEditor
  | Action.saveState => (PhotoEditor.saveState e).state
  | Action.undo => (PhotoEditor.undo e).state
  | Action.redo => (PhotoEditor.redo e).state
  | Action.restoreState i => (PhotoEditor.restoreState e i).state
  | Action.paint c => PhotoEditor.paint e c

/-- The editor after a sequence of events. -/
def run (e : PhotoEditor) (as : List Action) : PhotoEditor :=
  as.foldl Action.apply e

/-- An example editor: history `S0, S1, S2` with the pointer at `p`. -/
def exS012 (p : Int) : PhotoEditor :=
  { init "blank" with history := ["S0", "S1", "S2"], historyStep := p }

/-- An example editor with the brush selected and one committed state. -/
def exBrush : PhotoEditor :=
  { init "S0" with currentTool := "brush", history := ["S0"], historyStep := 0 }

/-- An example pointer event. -/
def exMouse : MouseEnv :=
  { clientX := 120
    clientY := 80
    rectLeft := 20
    rectTop := 30
    colorPicker := "#ff0000"
    brushSize := 5
    opacity := 100 }

/-! ### Remote transforms (lines 118-314)

The asynchronous methods are run to the point where nothing more of them can
happen: the `fetch` has settled and the image, if one is loaded, has fired
`onload` or never will. What the network and the image loader deliver is an
argument of the model. -/

/-- The body of a transform request; the constructor fixes the URL
(`/api/filter`, `/api/resize`, `/api/rotate`). `filename` is the value of
`this.currentFilename` when the request is built. -/
inductive Request where
  | filter (filename : String) (filter : String) (value : Option String) : Request
  | resize (filename : String) (width : String) (height : String) : Request
  | rotate (filename : String) (angle : Int) : Request
  deriving DecidableEq

/-- The `filename` property of a request body. -/
def Request.filename : Request → String
  | Request.filter f _ _ => f
  | Request.resize f _ _ => f
  | Request.rotate f _ => f

/-- What `await fetch(...)` followed by `await response.json()` delivers to a
transform: `threw` when either rejects or throws, otherwise the truthiness of
`result.success` with `result.processedImage` and `result.error`. -/
inductive Reply where
  | threw : Reply
  | json (success : Bool) (processedImage : String) (error : String) : Reply
  deriving DecidableEq

/-- A transform reply counts as a success when the request resolved and
`result.success` is truthy. -/
def Reply.ok : Reply → Bool
  | Reply.threw => false
  | Reply.json success _ _ => success

/-- What the upload request delivers: `threw`, or the truthiness of
`result.success` with `result.image.filename`, `result.image.path` and
`result.error`. -/
inductive UploadReply where
  | threw : UploadReply
  | json (success : Bool) (filename : String) (path : String) (error : String) : UploadReply
  deriving DecidableEq

/-- The result of a transform call: the outcome on the editor and the request
that was sent, if any. -/
structure Sent where
  outcome : Outcome
  request : Option Request

/-- Method `loadImageToCanvas(imagePath)` (lines 147-162). `images imagePath` is
the serialization of the canvas once the image at `imagePath` has been drawn
on it, or `none` when the image never loads; then `onload` never runs and the
promise stays pending.
```
img.onload = () => {
    this.canvas.width = img.width;  this.canvas.height = img.height;
    this.ctx.clearRect(...);  this.ctx.drawImage(img, 0, 0);
    this.currentImage = img;
    this.saveState();
    ...
};
img.src = imagePath;
``` -/
def loadImageToCanvas (e : PhotoEditor) (imagePath : String)
    (images : String → Option String) : Outcome :=
  match images imagePath with
  | some c => saveState { e with canvas := c }
  | none => { state := e, thrown := none }

/-- Method `uploadFile(file)` (lines 118-145), given the reply to the upload
request. -/
def uploadFile (e : PhotoEditor) (r : UploadReply) (images : String → Option String) :
    Outcome :=
  match r with
  | UploadReply.threw => { state := e, thrown := none }
  | UploadReply.json success filename path _ =>
    if success then
      loadImageToCanvas { e with currentFilename := some filename } path images
    else
      { state := e, thrown := none }

/-- The common body of `applyFilter`, `resizeImage` and `rotateImage` after the
request body has been built:
```
try {
    const response = await fetch(url, { ..., body: JSON.stringify(body) });
    const result = await response.json();
    if (result.success) {
        await this.loadImageToCanvas(result.processedImage);
    } else {
        alert(...);
    }
} catch (error) { ... alert(...); }
``` -/
def transform (e : PhotoEditor) (req : Request) (r : Reply)
    (images : String → Option String) : Sent :=
  match r with
  | Reply.threw => { outcome := { state := e, thrown := none }, request := some req }
  | Reply.json success processedImage _ =>
    if success then
      { outcome := loadImageToCanvas e processedImage images, request := some req }
    else
      { outcome := { state := e, thrown := none }, request := some req }

/-- Method `applyFilter(filter, value = null)` (lines 186-220). The guard
`!this.currentFilename` holds for `null` and for the empty string. -/
def applyFilter (e : PhotoEditor) (filter : String) (value : Option String) (r : Reply)
    (images : String → Option String) : Sent :=
  match e.currentFilename with
  | none => { outcome := { state := e, thrown := none }, request := none }
  | some f =>
    if f = "" then { outcome := { state := e, thrown := none }, request := none }
    else transform e (Request.filter f filter value) r images

/-- Method `resizeImage(width, height)` (lines 245-279). -/
def resizeImage (e : PhotoEditor) (width height : String) (r : Reply)
    (images : String → Option String) : Sent :=
  match e.currentFilename with
  | none => { outcome := { state := e, thrown := none }, request := none }
  | some f =>
    if f = "" then { outcome := { state := e, thrown := none }, request := none }
    else transform e (Request.resize f width height) r images

/-- Method `rotateImage(angle)` (lines 281-314). -/
def rotateImage (e : PhotoEditor) (angle : Int) (r : Reply)
    (images : String → Option String) : Sent :=
  match e.currentFilename with
  | none => { outcome := { state := e, thrown := none }, request := none }
  | some f =>
    if f = "" then { outcome := { state := e, thrown := none }, request := none }
    else transform e (Request.rotate f angle) r images

/-- The guard `!this.currentFilename`: no image has been uploaded. -/
def noImage (e : PhotoEditor) : Prop :=
  e.currentFilename = none ∨ e.currentFilename = some ""

instance (e : PhotoEditor) : Decidable (noImage e) := by
  unfold noImage; infer_instance

/-- An example editor after an upload: one committed state, file `a.png`. -/
def exLoaded : PhotoEditor :=
  { init "blank" with
    currentFilename := some "a.png", history := ["S0"], historyStep := 0, canvas := "S0" }

/-- An example image server: every path decodes to its own name. -/
def exImages : String → Option String :=
  fun p => some p

/-! ### Zoom controls (lines 316-347)

The zoom factor is a JavaScript double; it is modelled by an exact rational. -/

/-- The `zoomIn` click handler (lines 317-320):
`this.zoom = Math.min(this.zoom * 1.2, 5)`. -/
def zoomIn (e : PhotoEditor) : PhotoEditor :=
  { e with zoom := min (e.zoom * 1.2) 5 }

/-- The `zoomOut` click handler (lines 322-325):
`this.zoom = Math.max(this.zoom / 1.2, 0.1)`. -/
def zoomOut (e : PhotoEditor) : PhotoEditor :=
  { e with zoom := max (e.zoom / 1.2) 0.1 }

/-- Method `fitToScreen()` (lines 337-347). `containerWidth`, `containerHeight`
are the sides of the bounding rectangle of `canvasContainer`; `canvasWidth`,
`canvasHeight` are `this.canvas.width` and `this.canvas.height`.
```
const scaleX = (containerRect.width - 40) / this.canvas.width;
const scaleY = (containerRect.height - 40) / this.canvas.height;
this.zoom = Math.min(scaleX, scaleY, 1);
``` -/
def fitToScreen (e : PhotoEditor)
    (containerWidth containerHeight canvasWidth canvasHeight : ℚ) : PhotoEditor :=
  let scaleX := (containerWidth - 40) / canvasWidth
  let scaleY := (containerHeight - 40) / canvasHeight
  { e with zoom := min (min scaleX scaleY) 1 }

/-- The clicks on the zoom controls; `fitToScreen` carries the container and
canvas dimensions found at the click. -/
inductive ZoomAction where
  | zoomIn : ZoomAction
  | zoomOut : ZoomAction
  | fitToScreen (containerWidth containerHeight canvasWidth canvasHeight : ℚ) : ZoomAction

/-- The editor after one click on a zoom control. -/
def ZoomAction.apply (e : PhotoEditor) : ZoomAction → PhotoEditor
  | ZoomAction.zoomIn => PhotoEditor.zoomIn e
  | ZoomAction.zoomOut => PhotoEditor.zoomOut e
  | ZoomAction.fitToScreen cw ch w h => PhotoEditor.fitToScreen e cw ch w h

/-- The editor after a sequence of clicks on the zoom controls. -/
def runZoom (e : PhotoEditor) (as : List ZoomAction) : PhotoEditor :=
  as.foldl ZoomAction.apply e

/-- The dimensions admitted for `fitToScreen`: a positive canvas and a
container with non-negative sides. -/
def ZoomAction.Admissible : ZoomAction → Prop
  | ZoomAction.zoomIn => True
  | ZoomAction.zoomOut => True
  | ZoomAction.fitToScreen cw ch w h => 0 ≤ cw ∧ 0 ≤ ch ∧ 0 < w ∧ 0 < h

/-! ### Sessions after an upload -/

/-- The events of an editing session that follow an upload. A transform
carries the reply that its request receives. -/
inductive Event where
  | applyFilter (filter : String) (value : Option String) (r : Reply) : Event
  | resizeImage (width height : String) (r : Reply) : Event
  | rotateImage (angle : Int) (r : Reply) : Event
  | setTool (tool : String) : Event
  | startDrawing (m : MouseEnv) : Event
  | stopDrawing : Event
  | paint (c : String) : Event
  | saveState : Event
  | undo : Event
  | redo : Event
  | restoreState (i : Int) : Event

/-- A session: the editor and the transform requests sent so far, oldest
first. -/
structure Session where
  editor : PhotoEditor
  requests : List Request

/-- The session after a transform call. -/
def Session.record (s : Session) (x : Sent) : Session :=
  { editor := x.outcome.state, requests := s.requests ++ x.request.toList }

/-- The session after one event. `setTool` is the click handler of a tool button
(lines 48-55): `this.currentTool = btn.dataset.tool`. -/
def Event.apply (images : String → Option String) (s : Session) : Event → Session
  | Event.applyFilter filter value r =>
    s.record (PhotoEditor.applyFilter s.editor filter value r images)
  | Event.resizeImage width height r =>
    s.record (PhotoEditor.resizeImage s.editor width height r images)
  | Event.rotateImage angle r => s.record (PhotoEditor.rotateImage s.editor angle r images)
  | Event.setTool tool => { s with editor := { s.editor with currentTool := tool } }
  | Event.startDrawing m => { s with editor := (PhotoEditor.startDrawing s.editor m).state }
  | Event.stopDrawing => { s with editor := (PhotoEditor.stopDrawing s.editor).state }
  | Event.paint c => { s with editor := PhotoEditor.paint s.editor c }
  | Event.saveState => { s with editor := (PhotoEditor.saveState s.editor).state }
  | Event.undo => { s with editor := (PhotoEditor.undo s.editor).state }
  | Event.redo => { s with editor := (PhotoEditor.redo s.editor).state }
  | Event.restoreState i => { s with editor := (PhotoEditor.restoreState s.editor i).state }

/-- The session after a sequence of events. -/
def runEvents (images : String → Option String) (s : Session) (evs : List Event) : Session :=
  evs.foldl (Event.apply images) s

end PhotoEditor

/-! ## The upload filter of the server (src/server.js, lines 40-56) -/

namespace Server

/-- The `file` argument of the multer `fileFilter`: the name and the MIME type
that the client declares. -/
structure UploadedFile where
  originalname : String
  mimetype : String
  deriving DecidableEq

/-- The alternatives of the regular expression
`/jpeg|jpg|png|gif|bmp|webp/`. -/
def allowedTypes : List String :=
  ["jpeg", "jpg", "png", "gif", "bmp", "webp"]

/-- Whether `pat` occurs in `s` as a contiguous block. -/
def occursIn (pat s : List Char) : Bool :=
  s.tails.any (fun t => pat.isPrefixOf t)

/-- The call `allowedTypes.test(s)`: the expression has no anchors, so it
matches when one of its alternatives occurs anywhere in `s`. -/
def allowedTypesTest (s : String) : Bool :=
  allowedTypes.any (fun p => occursIn p.data s.data)

/-- The last segment of a path, trailing slashes dropped. -/
def basename (path : List Char) : List Char :=
  (((path.reverse.dropWhile (· == '/')).takeWhile (· != '/'))).reverse

/-- The library function `path.extname` of Node.js (POSIX flavour): the part of
the last path segment from its last `.` on; empty when the segment has no `.`,
when its only `.` is its first character, and for the segment `..`. -/
def extname (path : String) : String :=
  let base := basename path.data
  let ext := ('.' :: (base.reverse.takeWhile (· != '.')).reverse)
  if base.all (· != '.') then ""
  else if ext.length = base.length then ""
  else if base = ['.', '.'] then ""
  else String.mk ext

/-- The library method `String.prototype.toLowerCase`, on the letters `A` to
`Z`; other characters are left as they are. -/
def toLowerCase (s : String) : String :=
  String.mk (s.data.map Char.toLower)

/-- The `fileFilter` option (lines 45-55). `cb(null, true)` is `Except.ok true`,
`cb(new Error(msg))` is `Except.error msg`.
```
const allowedTypes = /jpeg|jpg|png|gif|bmp|webp/;
const extname = allowedTypes.test(path.extname(file.originalname).toLowerCase());
const mimetype = allowedTypes.test(file.mimetype);
if (mimetype && extname) { return cb(null, true); }
else { cb(new Error('Solo se permiten archivos de imagen')); }
``` -/
def fileFilter (file : UploadedFile) : Except String Bool :=
  let ext := allowedTypesTest (toLowerCase (extname file.originalname))
  let mimetype := allowedTypesTest file.mimetype
  if mimetype && ext then Except.ok true
  else Except.error "Solo se permiten archivos de imagen"

/-- The content types that the specification admits at the upload boundary:
jpeg, png, gif, bmp and webp. -/
def specMimeTypes : List String :=
  ["image/jpeg", "image/png", "image/gif", "image/bmp", "image/webp"]

/-- The file extensions of the content types that the specification admits. -/
def specExtensions : List String :=
  [".jpeg", ".jpg", ".png", ".gif", ".bmp", ".webp"]

end Server

open PhotoEditor

/-! ## Basic facts about the methods -/

theorem saveState_of_inv (e : PhotoEditor) (h : HistoryInv e) :
    saveState e =
      { state := { e with
          historyStep := e.historyStep + 1
          history := e.history.take (e.historyStep + 1).toNat ++ [e.canvas] }
        thrown := none } := by
  unfold saveState
  rcases h with ⟨h1, h2⟩ | ⟨h1, h2⟩
  · simp [h1, h2]
  · by_cases hlt : e.historyStep + 1 < (e.history.length : Int)
    · have h0 : ¬ (e.historyStep + 1 < 0) := by omega
      simp [hlt, h0]
    · have hlen : e.history.length ≤ (e.historyStep + 1).toNat := by omega
      simp [hlt, List.take_of_length_le hlen]

theorem commit_of_inv (e : PhotoEditor) (s : String) (h : HistoryInv e) :
    commit e s =
      { state := { e with
          canvas := s
          historyStep := e.historyStep + 1
          history := e.history.take (e.historyStep + 1).toNat ++ [s] }
        thrown := none } := by
  have hp : HistoryInv (paint e s) := h
  unfold commit
  rw [saveState_of_inv _ hp]
  rfl

theorem restoreState_of_valid (e : PhotoEditor) (i : Int) (s : String)
    (h0 : 0 ≤ i) (hs : e.history[i.toNat]? = some s) :
    restoreState e i =
      { state := { e with historyStep := i, imageSrc := e.imageSrc ++ [s] }
        thrown := none } := by
  obtain ⟨hlt, hget⟩ := List.getElem?_eq_some_iff.mp hs
  have hv : 0 ≤ i ∧ i < (e.history.length : Int) := ⟨h0, by omega⟩
  unfold restoreState
  rw [dif_pos hv]
  simp only [List.get_eq_getElem, hget]

theorem restoreState_of_invalid (e : PhotoEditor) (i : Int)
    (h : ¬ (0 ≤ i ∧ i < (e.history.length : Int))) :
    restoreState e i = { state := e, thrown := none } := by
  unfold restoreState
  rw [dif_neg h]

theorem restoreState_thrown (e : PhotoEditor) (i : Int) :
    (restoreState e i).thrown = none := by
  unfold restoreState
  split <;> rfl

theorem restoreState_history (e : PhotoEditor) (i : Int) :
    (restoreState e i).state.history = e.history := by
  unfold restoreState
  split <;> rfl

theorem undo_history (e : PhotoEditor) : (undo e).state.history = e.history := by
  unfold undo
  split
  · exact restoreState_history e _
  · rfl

theorem redo_history (e : PhotoEditor) : (redo e).state.history = e.history := by
  unfold redo
  split
  · exact restoreState_history e _
  · rfl

theorem undo_thrown (e : PhotoEditor) : (undo e).thrown = none := by
  unfold undo
  split
  · exact restoreState_thrown e _
  · rfl

theorem redo_thrown (e : PhotoEditor) : (redo e).thrown = none := by
  unfold redo
  split
  · exact restoreState_thrown e _
  · rfl

/-- Inside the history every index holds a snapshot. -/
theorem history_entry_of_lt (e : PhotoEditor) (i : Int)
    (h0 : 0 ≤ i) (h1 : i < (e.history.length : Int)) :
    ∃ s, e.history[i.toNat]? = some s := by
  have hlt : i.toNat < e.history.length := by omega
  exact ⟨e.history[i.toNat], List.getElem?_eq_getElem hlt⟩

theorem undo_of_pos (e : PhotoEditor) (s : String) (h : 0 < e.historyStep)
    (hs : e.history[(e.historyStep - 1).toNat]? = some s) :
    undo e =
      { state := { e with historyStep := e.historyStep - 1, imageSrc := e.imageSrc ++ [s] }
        thrown := none } := by
  unfold undo
  rw [if_pos h]
  exact restoreState_of_valid e _ s (by omega) hs

theorem undo_of_nonpos (e : PhotoEditor) (h : e.historyStep ≤ 0) :
    undo e = { state := e, thrown := none } := by
  unfold undo
  rw [if_neg (by omega)]

theorem redo_of_lt (e : PhotoEditor) (s : String) (h0 : -1 ≤ e.historyStep)
    (h : e.historyStep < (e.history.length : Int) - 1)
    (hs : e.history[(e.historyStep + 1).toNat]? = some s) :
    redo e =
      { state := { e with historyStep := e.historyStep + 1, imageSrc := e.imageSrc ++ [s] }
        thrown := none } := by
  unfold redo
  rw [if_pos h]
  exact restoreState_of_valid e _ s (by omega) hs

theorem redo_of_ge (e : PhotoEditor) (h : (e.history.length : Int) - 1 ≤ e.historyStep) :
    redo e = { state := e, thrown := none } := by
  unfold redo
  rw [if_neg (by omega)]

/-- After a commit from a state satisfying the invariant the pointer is on the
last entry. -/
theorem commit_step_last (e : PhotoEditor) (s : String) (h : HistoryInv e) :
    (commit e s).state.historyStep = ((commit e s).state.history.length : Int) - 1 := by
  rw [commit_of_inv e s h]
  show e.historyStep + 1 = ((e.history.take (e.historyStep + 1).toNat ++ [s]).length : Int) - 1
  rw [List.length_append, List.length_take, List.length_singleton]
  rcases h with ⟨h1, h2⟩ | ⟨h1, h2⟩
  · simp [h1, h2]
  · omega

/-! ## C1: the truncation rule of a commit -/

/-- C1. Commit truncation rule: from every history state that is empty with
`historyStep = -1` or has `0 ≤ historyStep < history.length`, and for every
snapshot `s`, `saveState` run on a canvas serializing to `s` throws nothing,
leaves `history` equal to its first `historyStep + 1` entries followed by `s`,
and leaves `historyStep` at the last index; the new length is
`historyStep + 2`, so every entry after the old position is gone, and every
entry at or before the old position is where it was. -/
theorem C1_saveState_truncation (e : PhotoEditor) (s : String) (h : HistoryInv e) :
    (commit e s).thrown = none ∧
    (commit e s).state.history = e.history.take (e.historyStep + 1).toNat ++ [s] ∧
    (commit e s).state.historyStep = ((commit e s).state.history.length : Int) - 1 ∧
    ((commit e s).state.history.length : Int) = e.historyStep + 2 ∧
    (∀ i : Nat, (i : Int) ≤ e.historyStep →
      (commit e s).state.history[i]? = e.history[i]? ∧ e.history[i]?.isSome) := by
  rw [commit_of_inv e s h]
  have hlen : ((e.history.take (e.historyStep + 1).toNat).length : Int) = e.historyStep + 1 := by
    rw [List.length_take]
    rcases h with ⟨h1, h2⟩ | ⟨h1, h2⟩
    · simp [h1, h2]
    · omega
  refine ⟨rfl, rfl, ?_, ?_, ?_⟩
  · simp only [List.length_append, List.length_singleton, Nat.cast_add, Nat.cast_one, hlen]
    omega
  · simp only [List.length_append, List.length_singleton, Nat.cast_add, Nat.cast_one, hlen]
    omega
  · intro i hi
    have hi1 : i < (e.history.take (e.historyStep + 1).toNat).length := by omega
    have hi2 : i < (e.historyStep + 1).toNat := by omega
    have hi3 : i < e.history.length := by
      rcases h with ⟨h1, h2⟩ | ⟨h1, h2⟩ <;> omega
    constructor
    · show (e.history.take (e.historyStep + 1).toNat ++ [s])[i]? = e.history[i]?
      rw [List.getElem?_append_left hi1, List.getElem?_take_of_lt hi2]
    · rw [List.getElem?_eq_getElem hi3]; rfl

theorem C1_saveState_truncation_witness :
    HistoryInv (exS012 1) ∧
    (commit (exS012 1) "S3").thrown = none ∧
    (commit (exS012 1) "S3").state.history = (exS012 1).history.take ((exS012 1).historyStep + 1).toNat ++ ["S3"] ∧
    (commit (exS012 1) "S3").state.historyStep = ((commit (exS012 1) "S3").state.history.length : Int) - 1 ∧
    ((commit (exS012 1) "S3").state.history.length : Int) = (exS012 1).historyStep + 2 ∧
    (∀ i : Nat, (i : Int) ≤ (exS012 1).historyStep →
      (commit (exS012 1) "S3").state.history[i]? = (exS012 1).history[i]? ∧ (exS012 1).history[i]?.isSome) :=
  ⟨by decide, C1_saveState_truncation (exS012 1) "S3" (by decide)⟩

/-! ## C2: undo followed by redo -/

/-- C2. Undo/redo round trip: from every history state with
`0 < historyStep < history.length`, `undo` followed by `redo` throws nothing and
ends with the same `history` and the same `historyStep`; apart from the record
of redraws the whole editor is the one before the `undo`, and the last snapshot
selected for redraw is `history[historyStep]`, the one current before the
`undo` (the redraws are `history[historyStep - 1]`, then
`history[historyStep]`). -/
theorem C2_undo_redo_roundtrip (e : PhotoEditor)
    (h0 : 0 < e.historyStep) (h1 : e.historyStep < (e.history.length : Int)) :
    (undo e).thrown = none ∧
    (redo (undo e).state).thrown = none ∧
    (redo (undo e).state).state.history = e.history ∧
    (redo (undo e).state).state.historyStep = e.historyStep ∧
    { (redo (undo e).state).state with imageSrc := e.imageSrc } = e ∧
    (∃ prev cur, e.history[(e.historyStep - 1).toNat]? = some prev ∧
      e.history[e.historyStep.toNat]? = some cur ∧
      (redo (undo e).state).state.imageSrc = e.imageSrc ++ [prev, cur] ∧
      (redo (undo e).state).state.imageSrc.getLast? = some cur) := by
  obtain ⟨prev, hprev⟩ := history_entry_of_lt e (e.historyStep - 1) (by omega) (by omega)
  obtain ⟨cur, hcur⟩ := history_entry_of_lt e e.historyStep (by omega) (by omega)
  rw [undo_of_pos e prev h0 hprev]
  have hcur2 : e.history[(e.historyStep - 1 + 1).toNat]? = some cur := by
    rw [Int.sub_add_cancel]; exact hcur
  rw [redo_of_lt _ cur (by show -1 ≤ e.historyStep - 1; omega)
    (by show e.historyStep - 1 < (e.history.length : Int) - 1; omega) hcur2]
  refine ⟨rfl, rfl, rfl, ?_, ?_, prev, cur, hprev, hcur, ?_, ?_⟩
  · show e.historyStep - 1 + 1 = e.historyStep
    omega
  · cases e
    simp
  · show (e.imageSrc ++ [prev]) ++ [cur] = e.imageSrc ++ [prev, cur]
    simp
  · show ((e.imageSrc ++ [prev]) ++ [cur]).getLast? = some cur
    simp

theorem C2_undo_redo_roundtrip_witness :
    0 < (exS012 1).historyStep ∧ (exS012 1).historyStep < ((exS012 1).history.length : Int) ∧
    (undo (exS012 1)).thrown = none ∧
    (redo (undo (exS012 1)).state).thrown = none ∧
    (redo (undo (exS012 1)).state).state.history = (exS012 1).history ∧
    (redo (undo (exS012 1)).state).state.historyStep = (exS012 1).historyStep ∧
    { (redo (undo (exS012 1)).state).state with imageSrc := (exS012 1).imageSrc } = exS012 1 ∧
    (∃ prev cur, (exS012 1).history[((exS012 1).historyStep - 1).toNat]? = some prev ∧
      (exS012 1).history[(exS012 1).historyStep.toNat]? = some cur ∧
      (redo (undo (exS012 1)).state).state.imageSrc = (exS012 1).imageSrc ++ [prev, cur] ∧
      (redo (undo (exS012 1)).state).state.imageSrc.getLast? = some cur) :=
  ⟨by decide, by decide, C2_undo_redo_roundtrip (exS012 1) (by decide) (by decide)⟩

/-! ## C3: undo `k` times, then commit -/

/-- After `k` undos from a position at least `k` inside the history, the
history is untouched and the pointer has moved back by `k`. -/
theorem undoTimes_spec (k : Nat) (e : PhotoEditor)
    (h0 : (k : Int) ≤ e.historyStep) (h1 : e.historyStep < (e.history.length : Int)) :
    (undoTimes k e).history = e.history ∧
    (undoTimes k e).historyStep = e.historyStep - k := by
  induction k generalizing e with
  | zero => exact ⟨rfl, by simp [undoTimes]⟩
  | succ k ih =>
    obtain ⟨prev, hprev⟩ := history_entry_of_lt e (e.historyStep - 1) (by omega) (by omega)
    have hu := undo_of_pos e prev (by omega) hprev
    have hh : (undo e).state.history = e.history := by rw [hu]
    have hs : (undo e).state.historyStep = e.historyStep - 1 := by rw [hu]
    obtain ⟨ih1, ih2⟩ := ih (undo e).state (by rw [hs]; omega) (by rw [hs, hh]; omega)
    refine ⟨?_, ?_⟩
    · show (undoTimes k (undo e).state).history = e.history
      rw [ih1, hh]
    · show (undoTimes k (undo e).state).historyStep = e.historyStep - ((k + 1 : Nat) : Int)
      rw [ih2, hs]
      omega

/-- C3. Truncation law: for every history with `n ≥ 1` entries and the pointer
on the newest one, every `k ≤ n - 1` and every snapshot `s`, `k` undos followed
by a commit of `s` throw nothing and leave `n - k + 1` entries, the pointer at
`n - k`, and `history` equal to the first `n - k` original entries followed by
`s`, so nothing is stored beyond index `n - k` and the `k` redoable entries are
gone; a `redo` after that changes nothing. -/
theorem C3_truncation_law (e : PhotoEditor) (k : Nat) (s : String)
    (hn : 1 ≤ e.history.length)
    (hp : e.historyStep = (e.history.length : Int) - 1)
    (hk : k ≤ e.history.length - 1) :
    (commit (undoTimes k e) s).thrown = none ∧
    (commit (undoTimes k e) s).state.history.length = e.history.length - k + 1 ∧
    (commit (undoTimes k e) s).state.historyStep = ((e.history.length - k : Nat) : Int) ∧
    (commit (undoTimes k e) s).state.history = e.history.take (e.history.length - k) ++ [s] ∧
    (∀ j : Nat, e.history.length - k < j → (commit (undoTimes k e) s).state.history[j]? = none) ∧
    redo (commit (undoTimes k e) s).state =
      { state := (commit (undoTimes k e) s).state, thrown := none } := by
  obtain ⟨u1, u2⟩ := undoTimes_spec k e (by omega) (by omega)
  have hinv : HistoryInv (undoTimes k e) := Or.inr ⟨by rw [u2]; omega, by rw [u2, u1]; omega⟩
  have hidx : ((undoTimes k e).historyStep + 1).toNat = e.history.length - k := by
    rw [u2]; omega
  have hc := commit_of_inv (undoTimes k e) s hinv
  have hhist : (commit (undoTimes k e) s).state.history
      = e.history.take (e.history.length - k) ++ [s] := by
    rw [hc]
    show (undoTimes k e).history.take ((undoTimes k e).historyStep + 1).toNat ++ [s] = _
    rw [hidx, u1]
  have hstep : (commit (undoTimes k e) s).state.historyStep
      = ((e.history.length - k : Nat) : Int) := by
    rw [hc]
    show (undoTimes k e).historyStep + 1 = _
    rw [u2]; omega
  have hlen : (commit (undoTimes k e) s).state.history.length = e.history.length - k + 1 := by
    rw [hhist, List.length_append, List.length_take, List.length_singleton]
    omega
  refine ⟨by rw [hc], hlen, hstep, hhist, ?_, ?_⟩
  · intro j hj
    apply List.getElem?_eq_none
    omega
  · apply redo_of_ge
    rw [hstep, hlen]
    omega

theorem C3_truncation_law_witness :
    (1 ≤ (exS012 2).history.length ∧
      (exS012 2).historyStep = ((exS012 2).history.length : Int) - 1 ∧
      1 ≤ (exS012 2).history.length - 1) ∧
    ((commit (undoTimes 1 (exS012 2)) "S3").thrown = none ∧
      (commit (undoTimes 1 (exS012 2)) "S3").state.history.length
        = (exS012 2).history.length - 1 + 1 ∧
      (commit (undoTimes 1 (exS012 2)) "S3").state.historyStep
        = (((exS012 2).history.length - 1 : Nat) : Int) ∧
      (commit (undoTimes 1 (exS012 2)) "S3").state.history
        = (exS012 2).history.take ((exS012 2).history.length - 1) ++ ["S3"] ∧
      (∀ j : Nat, (exS012 2).history.length - 1 < j →
        (commit (undoTimes 1 (exS012 2)) "S3").state.history[j]? = none) ∧
      redo (commit (undoTimes 1 (exS012 2)) "S3").state =
        { state := (commit (undoTimes 1 (exS012 2)) "S3").state, thrown := none }) ∧
    (undoTimes 1 (exS012 2)).historyStep = 1 ∧
    (commit (undoTimes 1 (exS012 2)) "S3").state.history = ["S0", "S1", "S3"] ∧
    (commit (undoTimes 1 (exS012 2)) "S3").state.historyStep = 2 :=
  ⟨⟨by decide, by decide, by decide⟩,
    C3_truncation_law (exS012 2) 1 "S3" (by decide) (by decide) (by decide),
    by decide, by decide, by decide⟩

/-! ## C4: the position invariant over whole sessions -/

/-- Method `saveState` from a state satisfying the invariant lands inside the
history. -/
theorem saveState_active (e : PhotoEditor) (h : HistoryInv e) :
    0 ≤ (saveState e).state.historyStep ∧
    (saveState e).state.historyStep < ((saveState e).state.history.length : Int) := by
  rw [saveState_of_inv e h]
  show 0 ≤ e.historyStep + 1 ∧
    e.historyStep + 1 < ((e.history.take (e.historyStep + 1).toNat ++ [e.canvas]).length : Int)
  rw [List.length_append, List.length_take, List.length_singleton]
  rcases h with ⟨h1, h2⟩ | ⟨h1, h2⟩
  · simp [h1, h2]
  · omega

theorem restoreState_active (e : PhotoEditor) (i : Int)
    (h : 0 ≤ e.historyStep ∧ e.historyStep < (e.history.length : Int)) :
    0 ≤ (restoreState e i).state.historyStep ∧
    (restoreState e i).state.historyStep < ((restoreState e i).state.history.length : Int) := by
  rw [restoreState_history]
  unfold restoreState
  split
  · rename_i hv
    exact hv
  · exact h

theorem undo_active (e : PhotoEditor)
    (h : 0 ≤ e.historyStep ∧ e.historyStep < (e.history.length : Int)) :
    0 ≤ (undo e).state.historyStep ∧
    (undo e).state.historyStep < ((undo e).state.history.length : Int) := by
  unfold undo
  split
  · exact restoreState_active e _ h
  · exact h

theorem redo_active (e : PhotoEditor)
    (h : 0 ≤ e.historyStep ∧ e.historyStep < (e.history.length : Int)) :
    0 ≤ (redo e).state.historyStep ∧
    (redo e).state.historyStep < ((redo e).state.history.length : Int) := by
  unfold redo
  split
  · exact restoreState_active e _ h
  · exact h

/-- Every event keeps a pointer that is inside the history inside the
history. -/
theorem apply_active (e : PhotoEditor) (a : Action)
    (h : 0 ≤ e.historyStep ∧ e.historyStep < (e.history.length : Int)) :
    0 ≤ (a.apply e).historyStep ∧
    (a.apply e).historyStep < ((a.apply e).history.length : Int) := by
  cases a with
  | saveState => exact saveState_active e (Or.inr h)
  | undo => exact undo_active e h
  | redo => exact redo_active e h
  | restoreState i => exact restoreState_active e i h
  | paint c => exact h

/-- On the empty history every event but `saveState` changes neither the
history nor the pointer. -/
theorem apply_empty (e : PhotoEditor) (a : Action) (ha : a ≠ Action.saveState)
    (h : e.history = [] ∧ e.historyStep = -1) :
    (a.apply e).history = [] ∧ (a.apply e).historyStep = -1 := by
  obtain ⟨h1, h2⟩ := h
  cases a with
  | saveState => exact absurd rfl ha
  | undo =>
    show (undo e).state.history = [] ∧ (undo e).state.historyStep = -1
    rw [undo_of_nonpos e (by omega)]
    exact ⟨h1, h2⟩
  | redo =>
    show (redo e).state.history = [] ∧ (redo e).state.historyStep = -1
    rw [redo_of_ge e (by rw [h1, h2]; simp)]
    exact ⟨h1, h2⟩
  | restoreState i =>
    show (restoreState e i).state.history = [] ∧ (restoreState e i).state.historyStep = -1
    rw [restoreState_of_invalid e i (by rw [h1]; simp)]
    exact ⟨h1, h2⟩
  | paint c => exact ⟨h1, h2⟩

theorem run_active (as : List Action) (e : PhotoEditor)
    (h : 0 ≤ e.historyStep ∧ e.historyStep < (e.history.length : Int)) :
    0 ≤ (run e as).historyStep ∧ (run e as).historyStep < ((run e as).history.length : Int) := by
  induction as generalizing e with
  | nil => exact h
  | cons a as ih => exact ih (a.apply e) (apply_active e a h)

theorem run_empty (as : List Action) (e : PhotoEditor)
    (h : e.history = [] ∧ e.historyStep = -1) :
    (Action.saveState ∉ as → (run e as).history = [] ∧ (run e as).historyStep = -1) ∧
    (Action.saveState ∈ as →
      0 ≤ (run e as).historyStep ∧ (run e as).historyStep < ((run e as).history.length : Int)) := by
  induction as generalizing e with
  | nil => exact ⟨fun _ => h, fun hm => absurd hm (List.not_mem_nil _)⟩
  | cons a as ih =>
    by_cases ha : a = Action.saveState
    · subst ha
      have hact := run_active as (Action.saveState.apply e) (saveState_active e (Or.inl h))
      exact ⟨fun hn => absurd (List.mem_cons_self _ _) hn, fun _ => hact⟩
    · obtain ⟨ih1, ih2⟩ := ih (a.apply e) (apply_empty e a ha h)
      refine ⟨fun hn => ih1 (fun hm => hn (List.mem_cons_of_mem _ hm)), fun hm => ih2 ?_⟩
      rcases List.mem_cons.mp hm with heq | hm2
      · exact absurd heq.symm ha
      · exact hm2

/-- In a session started from the constructed editor `saveState` never
throws: the negative-length assignment is out of reach. -/
theorem run_saveState_no_throw (blank : String) (as : List Action) :
    (saveState (run (init blank) as)).thrown = none := by
  obtain ⟨h1, h2⟩ := run_empty as (init blank) ⟨rfl, rfl⟩
  have hinv : HistoryInv (run (init blank) as) := by
    by_cases hm : Action.saveState ∈ as
    · exact Or.inr (h2 hm)
    · exact Or.inl (h1 hm)
  rw [saveState_of_inv _ hinv]

/-- C4. History position invariant: after any sequence of `saveState`, `undo`,
`redo`, `restoreState(i)` (any integer `i`) and canvas repaints from the
constructed editor (`history = []`, `historyStep = -1`), if no `saveState` has
run then `history` is empty and `historyStep = -1`, and if a `saveState` has
run then `history` is non-empty and `0 ≤ historyStep < history.length`; so the
invariant holds in every reachable state and the history is never empty again
after a commit. -/
theorem C4_history_position_invariant (blank : String) (as : List Action) :
    (Action.saveState ∉ as →
      (run (init blank) as).history = [] ∧ (run (init blank) as).historyStep = -1) ∧
    (Action.saveState ∈ as →
      (run (init blank) as).history ≠ [] ∧ 0 ≤ (run (init blank) as).historyStep ∧
      (run (init blank) as).historyStep < ((run (init blank) as).history.length : Int)) ∧
    HistoryInv (run (init blank) as) := by
  obtain ⟨h1, h2⟩ := run_empty as (init blank) ⟨rfl, rfl⟩
  refine ⟨h1, fun hm => ?_, ?_⟩
  · obtain ⟨ha, hb⟩ := h2 hm
    refine ⟨?_, ha, hb⟩
    intro hnil
    rw [hnil] at hb
    simp at hb
    omega
  · by_cases hm : Action.saveState ∈ as
    · exact Or.inr (h2 hm)
    · exact Or.inl (h1 hm)

theorem C4_history_position_invariant_witness :
    (run (init "blank") [Action.undo, Action.restoreState 0, Action.redo]).history = [] ∧
    (run (init "blank") [Action.undo, Action.restoreState 0, Action.redo]).historyStep = -1 ∧
    (run (init "blank") [Action.saveState, Action.paint "S1", Action.saveState, Action.undo,
      Action.restoreState 7, Action.undo]).history = ["blank", "S1"] ∧
    (run (init "blank") [Action.saveState, Action.paint "S1", Action.saveState, Action.undo,
      Action.restoreState 7, Action.undo]).historyStep = 0 ∧
    HistoryInv (run (init "blank") [Action.saveState, Action.paint "S1", Action.saveState,
      Action.undo, Action.restoreState 7, Action.undo]) :=
  ⟨((C4_history_position_invariant "blank"
      [Action.undo, Action.restoreState 0, Action.redo]).1 (by decide)).1,
    ((C4_history_position_invariant "blank"
      [Action.undo, Action.restoreState 0, Action.redo]).1 (by decide)).2,
    by decide, by decide,
    (C4_history_position_invariant "blank" [Action.saveState, Action.paint "S1",
      Action.saveState, Action.undo, Action.restoreState 7, Action.undo]).2.2⟩

/-! ## C5 and C6: `restoreState` -/

/-- C5. `restoreState` of a valid index only moves the pointer: for every
editor and every `i` with `0 ≤ i < history.length`, `restoreState(i)` throws
nothing, leaves `history` as it was, sets `historyStep = i` and selects
`history[i]` for redraw; no other field changes. -/
theorem C5_restoreState_valid (e : PhotoEditor) (i : Int)
    (h0 : 0 ≤ i) (h1 : i < (e.history.length : Int)) :
    (restoreState e i).thrown = none ∧
    (restoreState e i).state.history = e.history ∧
    (restoreState e i).state.historyStep = i ∧
    (∃ s, e.history[i.toNat]? = some s ∧
      (restoreState e i).state.imageSrc = e.imageSrc ++ [s] ∧
      (restoreState e i).state = { e with historyStep := i, imageSrc := e.imageSrc ++ [s] }) := by
  obtain ⟨s, hs⟩ := history_entry_of_lt e i h0 h1
  rw [restoreState_of_valid e i s h0 hs]
  exact ⟨rfl, rfl, rfl, s, hs, rfl, rfl⟩

theorem C5_restoreState_valid_witness :
    ((0 : Int) ≤ 0 ∧ (0 : Int) < ((exS012 2).history.length : Int)) ∧
    (restoreState (exS012 2) 0).thrown = none ∧
    (restoreState (exS012 2) 0).state.history = (exS012 2).history ∧
    (restoreState (exS012 2) 0).state.historyStep = 0 ∧
    (∃ s, (exS012 2).history[(0 : Int).toNat]? = some s ∧
      (restoreState (exS012 2) 0).state.imageSrc = (exS012 2).imageSrc ++ [s] ∧
      (restoreState (exS012 2) 0).state =
        { exS012 2 with historyStep := 0, imageSrc := (exS012 2).imageSrc ++ [s] }) :=
  ⟨⟨by decide, by decide⟩, C5_restoreState_valid (exS012 2) 0 (by decide) (by decide)⟩

/-- C6, as stated, fails: `restoreState(3)` on a history of three entries
(`index == history.length`) raises no error at all. -/
theorem C6_restoreState_no_error_counterexample :
    ¬ ((3 : Int) < ((exS012 2).history.length : Int)) ∧
    ¬ (∃ err, (restoreState (exS012 2) 3).thrown = some err) := by
  refine ⟨by decide, ?_⟩
  rintro ⟨err, herr⟩
  rw [restoreState_thrown] at herr
  exact Option.noConfusion herr

/-- C6, amended. For every editor and every index outside
`0 ≤ index < history.length` (in particular `index == history.length`, and any
index on an empty history), `restoreState(index)` is a silent no-op: it raises
no error, selects nothing for redraw and leaves `history`, `historyStep` and
every other field unchanged. -/
theorem C6_restoreState_invalid_noop (e : PhotoEditor) (i : Int)
    (h : ¬ (0 ≤ i ∧ i < (e.history.length : Int))) :
    (restoreState e i).thrown = none ∧
    (restoreState e i).state = e ∧
    (restoreState e i).state.history = e.history ∧
    (restoreState e i).state.historyStep = e.historyStep ∧
    (restoreState e i).state.imageSrc = e.imageSrc := by
  rw [restoreState_of_invalid e i h]
  exact ⟨rfl, rfl, rfl, rfl, rfl⟩

theorem C6_restoreState_invalid_noop_witness :
    ¬ ((0 : Int) ≤ 3 ∧ (3 : Int) < ((exS012 2).history.length : Int)) ∧
    (restoreState (exS012 2) 3).thrown = none ∧
    (restoreState (exS012 2) 3).state = exS012 2 ∧
    (restoreState (exS012 2) 3).state.history = (exS012 2).history ∧
    (restoreState (exS012 2) 3).state.historyStep = (exS012 2).historyStep ∧
    (restoreState (exS012 2) 3).state.imageSrc = (exS012 2).imageSrc :=
  ⟨by decide, C6_restoreState_invalid_noop (exS012 2) 3 (by decide)⟩

/-! ## C7 and C8: `undo` and `redo` -/

/-- C7. `undo` semantics: for every editor satisfying the position invariant,
`undo` throws nothing and never alters `history`; it changes the editor iff
`historyStep > 0`; when `historyStep > 0` it sets `historyStep` to
`historyStep - 1` and selects `history[historyStep - 1]` for redraw, changing
nothing else; when `historyStep ≤ 0` (oldest state or empty history) it
returns the editor unchanged. -/
theorem C7_undo_semantics (e : PhotoEditor) (h : HistoryInv e) :
    (undo e).thrown = none ∧
    (undo e).state.history = e.history ∧
    ((undo e).state ≠ e ↔ 0 < e.historyStep) ∧
    (0 < e.historyStep →
      (undo e).state.historyStep = e.historyStep - 1 ∧
      ∃ s, e.history[(e.historyStep - 1).toNat]? = some s ∧
        (undo e).state =
          { e with historyStep := e.historyStep - 1, imageSrc := e.imageSrc ++ [s] }) ∧
    (e.historyStep ≤ 0 → undo e = { state := e, thrown := none }) := by
  have hpos : 0 < e.historyStep →
      (undo e).state.historyStep = e.historyStep - 1 ∧
      ∃ s, e.history[(e.historyStep - 1).toNat]? = some s ∧
        (undo e).state =
          { e with historyStep := e.historyStep - 1, imageSrc := e.imageSrc ++ [s] } := by
    intro hp
    have hlt : e.historyStep < (e.history.length : Int) := by
      rcases h with ⟨_, h2⟩ | ⟨_, h2⟩ <;> omega
    obtain ⟨s, hs⟩ := history_entry_of_lt e (e.historyStep - 1) (by omega) (by omega)
    rw [undo_of_pos e s hp hs]
    exact ⟨rfl, s, hs, rfl⟩
  refine ⟨undo_thrown e, undo_history e, ⟨fun hne => ?_, fun hp heq => ?_⟩, hpos,
    fun hle => undo_of_nonpos e hle⟩
  · by_contra hle
    rw [undo_of_nonpos e (by omega)] at hne
    exact hne rfl
  · have h1 := (hpos hp).1
    rw [heq] at h1
    omega

theorem C7_undo_semantics_witness :
    HistoryInv (exS012 2) ∧
    (undo (exS012 2)).thrown = none ∧
    (undo (exS012 2)).state.history = (exS012 2).history ∧
    ((undo (exS012 2)).state ≠ exS012 2 ↔ 0 < (exS012 2).historyStep) ∧
    (0 < (exS012 2).historyStep →
      (undo (exS012 2)).state.historyStep = (exS012 2).historyStep - 1 ∧
      ∃ s, (exS012 2).history[((exS012 2).historyStep - 1).toNat]? = some s ∧
        (undo (exS012 2)).state =
          { exS012 2 with
            historyStep := (exS012 2).historyStep - 1
            imageSrc := (exS012 2).imageSrc ++ [s] }) ∧
    ((exS012 2).historyStep ≤ 0 → undo (exS012 2) = { state := exS012 2, thrown := none }) :=
  ⟨by decide, C7_undo_semantics (exS012 2) (by decide)⟩

/-- C8. `redo` semantics: for every editor satisfying the position invariant,
`redo` throws nothing and never alters `history`; it changes the editor iff
`historyStep < history.length - 1`; when it does it sets `historyStep` to
`historyStep + 1` and selects `history[historyStep + 1]` for redraw, changing
nothing else; at the newest state and on an empty history it returns the
editor unchanged. Hence `redo` right after any commit is a no-op. -/
theorem C8_redo_semantics (e : PhotoEditor) (h : HistoryInv e) :
    (redo e).thrown = none ∧
    (redo e).state.history = e.history ∧
    ((redo e).state ≠ e ↔ e.historyStep < (e.history.length : Int) - 1) ∧
    (e.historyStep < (e.history.length : Int) - 1 →
      (redo e).state.historyStep = e.historyStep + 1 ∧
      ∃ s, e.history[(e.historyStep + 1).toNat]? = some s ∧
        (redo e).state =
          { e with historyStep := e.historyStep + 1, imageSrc := e.imageSrc ++ [s] }) ∧
    ((e.history.length : Int) - 1 ≤ e.historyStep → redo e = { state := e, thrown := none }) ∧
    (∀ s : String, redo (commit e s).state = { state := (commit e s).state, thrown := none }) := by
  have hge : -1 ≤ e.historyStep := by
    rcases h with ⟨_, h2⟩ | ⟨h1, _⟩ <;> omega
  have hlt : e.historyStep < (e.history.length : Int) - 1 →
      (redo e).state.historyStep = e.historyStep + 1 ∧
      ∃ s, e.history[(e.historyStep + 1).toNat]? = some s ∧
        (redo e).state =
          { e with historyStep := e.historyStep + 1, imageSrc := e.imageSrc ++ [s] } := by
    intro hp
    obtain ⟨s, hs⟩ := history_entry_of_lt e (e.historyStep + 1) (by omega) (by omega)
    rw [redo_of_lt e s hge hp hs]
    exact ⟨rfl, s, hs, rfl⟩
  refine ⟨redo_thrown e, redo_history e, ⟨fun hne => ?_, fun hp heq => ?_⟩, hlt,
    fun hle => redo_of_ge e hle, fun s => ?_⟩
  · by_contra hle
    rw [redo_of_ge e (by omega)] at hne
    exact hne rfl
  · have h1 := (hlt hp).1
    rw [heq] at h1
    omega
  · apply redo_of_ge
    have h3 := commit_step_last e s h
    omega

theorem C8_redo_semantics_witness :
    HistoryInv (exS012 1) ∧
    (redo (exS012 1)).thrown = none ∧
    (redo (exS012 1)).state.history = (exS012 1).history ∧
    ((redo (exS012 1)).state ≠ exS012 1 ↔
      (exS012 1).historyStep < ((exS012 1).history.length : Int) - 1) ∧
    ((exS012 1).historyStep < ((exS012 1).history.length : Int) - 1 →
      (redo (exS012 1)).state.historyStep = (exS012 1).historyStep + 1 ∧
      ∃ s, (exS012 1).history[((exS012 1).historyStep + 1).toNat]? = some s ∧
        (redo (exS012 1)).state =
          { exS012 1 with
            historyStep := (exS012 1).historyStep + 1
            imageSrc := (exS012 1).imageSrc ++ [s] }) ∧
    (((exS012 1).history.length : Int) - 1 ≤ (exS012 1).historyStep →
      redo (exS012 1) = { state := exS012 1, thrown := none }) ∧
    (∀ s : String,
      redo (commit (exS012 1) s).state = { state := (commit (exS012 1) s).state, thrown := none }) :=
  ⟨by decide, C8_redo_semantics (exS012 1) (by decide)⟩

/-! ## C9: counting commits -/

/-- Committing `ss` with the pointer on the newest entry (or on the empty
history) appends `ss` and leaves the pointer on the newest entry. -/
theorem commitAll_spec (ss : List String) (e : PhotoEditor)
    (h : HistoryInv e) (hlast : e.historyStep = (e.history.length : Int) - 1) :
    (commitAll e ss).history = e.history ++ ss ∧
    (commitAll e ss).historyStep = ((e.history.length + ss.length : Nat) : Int) - 1 ∧
    HistoryInv (commitAll e ss) := by
  induction ss generalizing e with
  | nil => exact ⟨by simp [commitAll], by simp [commitAll, hlast], h⟩
  | cons s ss ih =>
    have hc := commit_of_inv e s h
    have htake : e.history.take (e.historyStep + 1).toNat = e.history :=
      List.take_of_length_le (by omega)
    have hh : (commit e s).state.history = e.history ++ [s] := by
      rw [hc]
      show e.history.take (e.historyStep + 1).toNat ++ [s] = e.history ++ [s]
      rw [htake]
    have hs : (commit e s).state.historyStep = e.historyStep + 1 := by rw [hc]
    have hinv : HistoryInv (commit e s).state := Or.inr (saveState_active (paint e s) h)
    have hlast2 : (commit e s).state.historyStep
        = ((commit e s).state.history.length : Int) - 1 := commit_step_last e s h
    obtain ⟨ih1, ih2, ih3⟩ := ih (commit e s).state hinv hlast2
    refine ⟨?_, ?_, ih3⟩
    · show (commitAll (commit e s).state ss).history = e.history ++ s :: ss
      rw [ih1, hh]
      simp
    · show (commitAll (commit e s).state ss).historyStep = _
      rw [ih2, hh]
      simp only [List.length_append, List.length_cons, List.length_nil]
      omega

/-- C9. Commit counting: for every list `ss` of `N` snapshots, committing them
in order from the constructed editor (`history = []`, `historyStep = -1`)
leaves `history = ss` (so `history.length = N`, in commit order) and
`historyStep = N - 1`; no commit of such a sequence throws. -/
theorem C9_commit_counting (blank : String) (ss : List String) :
    (commitAll (init blank) ss).history = ss ∧
    (commitAll (init blank) ss).history.length = ss.length ∧
    (commitAll (init blank) ss).historyStep = (ss.length : Int) - 1 ∧
    (∀ s : String, (commit (commitAll (init blank) ss) s).thrown = none) := by
  obtain ⟨h1, h2, h3⟩ := commitAll_spec ss (init blank) (Or.inl ⟨rfl, rfl⟩) rfl
  have h1b : (commitAll (init blank) ss).history = ss := by
    rw [h1]; rfl
  refine ⟨h1b, by rw [h1b], ?_, fun s => ?_⟩
  · rw [h2]
    show (((0 + ss.length : Nat) : Int)) - 1 = (ss.length : Int) - 1
    rw [Nat.zero_add]
  · rw [commit_of_inv _ s h3]

theorem C9_commit_counting_witness :
    (commitAll (init "blank") ["S0", "S1", "S2"]).history = ["S0", "S1", "S2"] ∧
    (commitAll (init "blank") ["S0", "S1", "S2"]).history.length = 3 ∧
    (commitAll (init "blank") ["S0", "S1", "S2"]).historyStep = 2 ∧
    (commitAll (init "blank") []).history.length = 0 ∧
    (commitAll (init "blank") []).historyStep = -1 :=
  ⟨(C9_commit_counting "blank" ["S0", "S1", "S2"]).1,
    (C9_commit_counting "blank" ["S0", "S1", "S2"]).2.1,
    (C9_commit_counting "blank" ["S0", "S1", "S2"]).2.2.1,
    (C9_commit_counting "blank" []).2.1,
    (C9_commit_counting "blank" []).2.2.1⟩

/-! ## C10: the stroke lifecycle -/

theorem saveState_historyStep (e : PhotoEditor) :
    (saveState e).state.historyStep = e.historyStep + 1 := by
  unfold saveState
  dsimp only
  split
  · split <;> rfl
  · rfl

theorem saveState_isDrawing (e : PhotoEditor) :
    (saveState e).state.isDrawing = e.isDrawing := by
  unfold saveState
  dsimp only
  split
  · split <;> rfl
  · rfl

/-- What `saveState` does to the history depends on `history`, `historyStep`
and `canvas` only. -/
theorem saveState_congr (e1 e2 : PhotoEditor) (hh : e1.history = e2.history)
    (hs : e1.historyStep = e2.historyStep) (hc : e1.canvas = e2.canvas) :
    (saveState e1).state.history = (saveState e2).state.history ∧
    (saveState e1).thrown = (saveState e2).thrown := by
  unfold saveState
  simp only [hh, hs, hc]
  split
  · split <;> exact ⟨rfl, rfl⟩
  · exact ⟨rfl, rfl⟩

theorem stopDrawing_of_not_drawing (e : PhotoEditor) (h : e.isDrawing = false) :
    stopDrawing e = { state := e, thrown := none } := by
  unfold stopDrawing
  simp [h]

theorem stopDrawing_isDrawing (e : PhotoEditor) :
    (stopDrawing e).state.isDrawing = false := by
  unfold stopDrawing
  split
  · rw [saveState_isDrawing]
  · rename_i h
    simpa using h

/-- C10. Stroke commits happen on the active-to-inactive transition. For every
editor with `isDrawing = false` and every pointer event: if the tool is brush
or eraser, `startDrawing` sets `isDrawing` without touching history or canvas,
and the `stopDrawing` that follows clears `isDrawing` and runs `saveState`
exactly once (the pointer advances by one, history and exception are those of
one `saveState` on the unchanged canvas; under the position invariant nothing
is thrown and the pointer ends on the newly appended last entry); if the tool
is any other, `startDrawing` and the following `stopDrawing` change nothing, so
no commit is made and `isDrawing` stays false. `stopDrawing` with
`isDrawing = false` changes nothing, so from any editor a second `stopDrawing`
(pointer-leave after pointer-up) commits nothing more. -/
theorem C10_stroke_commit (e : PhotoEditor) (m : MouseEnv) (hd : e.isDrawing = false) :
    ((e.currentTool = "brush" ∨ e.currentTool = "eraser") →
      (startDrawing e m).thrown = none ∧
      (startDrawing e m).state.isDrawing = true ∧
      (startDrawing e m).state.history = e.history ∧
      (startDrawing e m).state.historyStep = e.historyStep ∧
      (startDrawing e m).state.canvas = e.canvas ∧
      (stopDrawing (startDrawing e m).state).state.isDrawing = false ∧
      (stopDrawing (startDrawing e m).state).state.historyStep = e.historyStep + 1 ∧
      (stopDrawing (startDrawing e m).state).state.history = (saveState e).state.history ∧
      (stopDrawing (startDrawing e m).state).thrown = (saveState e).thrown ∧
      (HistoryInv e →
        (stopDrawing (startDrawing e m).state).thrown = none ∧
        (stopDrawing (startDrawing e m).state).state.history
          = e.history.take (e.historyStep + 1).toNat ++ [e.canvas] ∧
        (stopDrawing (startDrawing e m).state).state.historyStep
          = ((stopDrawing (startDrawing e m).state).state.history.length : Int) - 1)) ∧
    (¬ (e.currentTool = "brush" ∨ e.currentTool = "eraser") →
      startDrawing e m = { state := e, thrown := none } ∧
      stopDrawing (startDrawing e m).state = { state := e, thrown := none }) ∧
    stopDrawing e = { state := e, thrown := none } ∧
    (∀ e2 : PhotoEditor,
      stopDrawing (stopDrawing e2).state = { state := (stopDrawing e2).state, thrown := none }) := by
  refine ⟨fun ht => ?_, fun ht => ?_, stopDrawing_of_not_drawing e hd,
    fun e2 => stopDrawing_of_not_drawing _ (stopDrawing_isDrawing e2)⟩
  · have hstart : startDrawing e m = { state := (startDrawing e m).state, thrown := none } ∧
        (startDrawing e m).state.isDrawing = true ∧
        (startDrawing e m).state.history = e.history ∧
        (startDrawing e m).state.historyStep = e.historyStep ∧
        (startDrawing e m).state.canvas = e.canvas := by
      unfold startDrawing
      rw [if_pos ht]
      exact ⟨rfl, rfl, rfl, rfl, rfl⟩
    obtain ⟨h1, h2, h3, h4, h5⟩ := hstart
    have hstop : stopDrawing (startDrawing e m).state =
        saveState { (startDrawing e m).state with
          isDrawing := false
          ctx := { (startDrawing e m).state.ctx with
            globalCompositeOperation := "source-over", globalAlpha := 1 } } := by
      unfold stopDrawing
      rw [if_pos h2]
    obtain ⟨hc1, hc2⟩ := saveState_congr
      { (startDrawing e m).state with
          isDrawing := false
          ctx := { (startDrawing e m).state.ctx with
            globalCompositeOperation := "source-over", globalAlpha := 1 } }
      e h3 h4 h5
    have hstep : (stopDrawing (startDrawing e m).state).state.historyStep = e.historyStep + 1 := by
      rw [hstop, saveState_historyStep]
      exact congrArg (· + 1) h4
    refine ⟨by rw [h1], h2, h3, h4, h5, stopDrawing_isDrawing _, hstep,
      by rw [hstop]; exact hc1, by rw [hstop]; exact hc2, fun hinv => ?_⟩
    have hsv := saveState_of_inv e hinv
    have hhist : (stopDrawing (startDrawing e m).state).state.history
        = e.history.take (e.historyStep + 1).toNat ++ [e.canvas] := by
      rw [hstop, hc1, hsv]
    refine ⟨by rw [hstop, hc2, hsv], hhist, ?_⟩
    rw [hstep, hhist, List.length_append, List.length_take, List.length_singleton]
    rcases hinv with ⟨i1, i2⟩ | ⟨i1, i2⟩
    · simp [i1, i2]
    · omega
  · have hstart : startDrawing e m = { state := e, thrown := none } := by
      unfold startDrawing
      rw [if_neg ht]
    rw [hstart]
    exact ⟨rfl, stopDrawing_of_not_drawing e hd⟩

theorem C10_stroke_commit_witness :
    exBrush.isDrawing = false ∧
    (exBrush.currentTool = "brush" ∨ exBrush.currentTool = "eraser") ∧
    HistoryInv exBrush ∧
    (stopDrawing (startDrawing exBrush exMouse).state).state.isDrawing = false ∧
    (stopDrawing (startDrawing exBrush exMouse).state).state.historyStep
      = exBrush.historyStep + 1 ∧
    ((stopDrawing (startDrawing exBrush exMouse).state).thrown = none ∧
      (stopDrawing (startDrawing exBrush exMouse).state).state.history
        = exBrush.history.take (exBrush.historyStep + 1).toNat ++ [exBrush.canvas] ∧
      (stopDrawing (startDrawing exBrush exMouse).state).state.historyStep
        = ((stopDrawing (startDrawing exBrush exMouse).state).state.history.length : Int) - 1) ∧
    stopDrawing exBrush = { state := exBrush, thrown := none } ∧
    (stopDrawing (startDrawing exBrush exMouse).state).state.history = ["S0", "S0"] ∧
    (stopDrawing (stopDrawing (startDrawing exBrush exMouse).state).state).state.history
      = ["S0", "S0"] :=
  ⟨rfl, by decide, by decide,
    ((C10_stroke_commit exBrush exMouse rfl).1 (by decide)).2.2.2.2.2.1,
    ((C10_stroke_commit exBrush exMouse rfl).1 (by decide)).2.2.2.2.2.2.1,
    ((C10_stroke_commit exBrush exMouse rfl).1 (by decide)).2.2.2.2.2.2.2.2.2 (by decide),
    (C10_stroke_commit exBrush exMouse rfl).2.2.1,
    by decide, by decide⟩

/-! ## C11: a failed transform -/

/-- A request that throws or resolves without a truthy `success` leaves the
editor as it was. -/
theorem transform_failed (e : PhotoEditor) (req : Request) (r : Reply)
    (images : String → Option String) (h : r.ok = false) :
    (transform e req r images).outcome = { state := e, thrown := none } := by
  cases r with
  | threw => rfl
  | json success processedImage error =>
    have hs : success = false := h
    subst hs
    rfl

theorem applyFilter_failed (e : PhotoEditor) (filter : String) (value : Option String)
    (r : Reply) (images : String → Option String) (h : r.ok = false ∨ noImage e) :
    (applyFilter e filter value r images).outcome = { state := e, thrown := none } := by
  unfold applyFilter
  cases hf : e.currentFilename with
  | none => rfl
  | some f =>
    by_cases hempty : f = ""
    · simp [hempty]
    · rcases h with h | h | h
      · simp only [if_neg hempty]
        exact transform_failed e _ r images h
      · rw [hf] at h; exact Option.noConfusion h
      · rw [hf] at h; exact absurd (Option.some.inj h) hempty

theorem resizeImage_failed (e : PhotoEditor) (width height : String)
    (r : Reply) (images : String → Option String) (h : r.ok = false ∨ noImage e) :
    (resizeImage e width height r images).outcome = { state := e, thrown := none } := by
  unfold resizeImage
  cases hf : e.currentFilename with
  | none => rfl
  | some f =>
    by_cases hempty : f = ""
    · simp [hempty]
    · rcases h with h | h | h
      · simp only [if_neg hempty]
        exact transform_failed e _ r images h
      · rw [hf] at h; exact Option.noConfusion h
      · rw [hf] at h; exact absurd (Option.some.inj h) hempty

theorem rotateImage_failed (e : PhotoEditor) (angle : Int)
    (r : Reply) (images : String → Option String) (h : r.ok = false ∨ noImage e) :
    (rotateImage e angle r images).outcome = { state := e, thrown := none } := by
  unfold rotateImage
  cases hf : e.currentFilename with
  | none => rfl
  | some f =>
    by_cases hempty : f = ""
    · simp [hempty]
    · rcases h with h | h | h
      · simp only [if_neg hempty]
        exact transform_failed e _ r images h
      · rw [hf] at h; exact Option.noConfusion h
      · rw [hf] at h; exact absurd (Option.some.inj h) hempty

/-- C11. Failed transform leaves history untouched: for every editor and each
of `applyFilter`, `resizeImage` and `rotateImage`, if the request throws or the
response has no truthy `success`, or the call is refused because no image is
loaded (`currentFilename` is null or empty), then the editor after the call is
the editor before it: `history`, `historyStep` and the canvas content are
unchanged, no `saveState` has run and nothing is thrown. -/
theorem C11_failed_transform (e : PhotoEditor) (r : Reply) (images : String → Option String)
    (filter : String) (value : Option String) (width height : String) (angle : Int)
    (h : r.ok = false ∨ noImage e) :
    ((applyFilter e filter value r images).outcome = { state := e, thrown := none } ∧
      (applyFilter e filter value r images).outcome.state.history = e.history ∧
      (applyFilter e filter value r images).outcome.state.historyStep = e.historyStep ∧
      (applyFilter e filter value r images).outcome.state.canvas = e.canvas) ∧
    ((resizeImage e width height r images).outcome = { state := e, thrown := none } ∧
      (resizeImage e width height r images).outcome.state.history = e.history ∧
      (resizeImage e width height r images).outcome.state.historyStep = e.historyStep ∧
      (resizeImage e width height r images).outcome.state.canvas = e.canvas) ∧
    ((rotateImage e angle r images).outcome = { state := e, thrown := none } ∧
      (rotateImage e angle r images).outcome.state.history = e.history ∧
      (rotateImage e angle r images).outcome.state.historyStep = e.historyStep ∧
      (rotateImage e angle r images).outcome.state.canvas = e.canvas) := by
  have h1 := applyFilter_failed e filter value r images h
  have h2 := resizeImage_failed e width height r images h
  have h3 := rotateImage_failed e angle r images h
  refine ⟨⟨h1, ?_, ?_, ?_⟩, ⟨h2, ?_, ?_, ?_⟩, ⟨h3, ?_, ?_, ?_⟩⟩ <;>
    first
      | rw [h1]
      | rw [h2]
      | rw [h3]

theorem C11_failed_transform_witness :
    ((Reply.json false "" "Filtro no válido").ok = false ∨ noImage exLoaded) ∧
    (applyFilter exLoaded "sepia" none (Reply.json false "" "Filtro no válido")
      exImages).outcome = { state := exLoaded, thrown := none } ∧
    (resizeImage exLoaded "10" "10" (Reply.json false "" "Filtro no válido")
      exImages).outcome = { state := exLoaded, thrown := none } ∧
    (rotateImage exLoaded 90 (Reply.json false "" "Filtro no válido")
      exImages).outcome = { state := exLoaded, thrown := none } ∧
    (applyFilter exLoaded "sepia" none (Reply.json true "/processed/b.png" "")
      exImages).outcome.state.history = ["S0", "/processed/b.png"] :=
  ⟨Or.inl rfl,
    (C11_failed_transform exLoaded (Reply.json false "" "Filtro no válido") exImages
      "sepia" none "10" "10" 90 (Or.inl rfl)).1.1,
    (C11_failed_transform exLoaded (Reply.json false "" "Filtro no válido") exImages
      "sepia" none "10" "10" 90 (Or.inl rfl)).2.1.1,
    (C11_failed_transform exLoaded (Reply.json false "" "Filtro no válido") exImages
      "sepia" none "10" "10" 90 (Or.inl rfl)).2.2.1,
    by decide⟩

/-! ## C12: the range of the zoom factor -/

/-- Clicking `zoomIn` or `zoomOut` keeps a zoom factor that is in `[0.1, 5]`
inside `[0.1, 5]`. -/
theorem zoomIn_zoomOut_clamped (e : PhotoEditor) (h0 : 0.1 ≤ e.zoom) (h1 : e.zoom ≤ 5) :
    (0.1 ≤ (zoomIn e).zoom ∧ (zoomIn e).zoom ≤ 5) ∧
    (0.1 ≤ (zoomOut e).zoom ∧ (zoomOut e).zoom ≤ 5) := by
  have hin : (zoomIn e).zoom = min (e.zoom * 1.2) 5 := rfl
  have hout : (zoomOut e).zoom = max (e.zoom / 1.2) 0.1 := rfl
  rw [hin, hout]
  refine ⟨⟨le_min ?_ ?_, min_le_right _ _⟩, ⟨le_max_right _ _, max_le ?_ ?_⟩⟩
  · norm_num at h0 ⊢; linarith
  · norm_num
  · norm_num at h1 ⊢; linarith
  · norm_num

/-- The upper bound survives every click on a zoom control. -/
theorem ZoomAction.apply_zoom_le (e : PhotoEditor) (a : ZoomAction) (h : e.zoom ≤ 5) :
    (a.apply e).zoom ≤ 5 := by
  cases a with
  | zoomIn => exact min_le_right _ _
  | zoomOut =>
    show max (e.zoom / 1.2) 0.1 ≤ 5
    refine max_le ?_ ?_
    · norm_num at h ⊢; linarith
    · norm_num
  | fitToScreen cw ch w h =>
    show min (min ((cw - 40) / w) ((ch - 40) / h)) 1 ≤ 5
    exact le_trans (min_le_right _ _) (by norm_num)

/-- From the constructed editor the zoom factor never exceeds 5. -/
theorem runZoom_zoom_le (as : List ZoomAction) (e : PhotoEditor) (h : e.zoom ≤ 5) :
    (runZoom e as).zoom ≤ 5 := by
  induction as generalizing e with
  | nil => exact h
  | cons a as ih => exact ih (a.apply e) (ZoomAction.apply_zoom_le e a h)

/-- C12. Zoom stays clamped to `[0.1, 5.0]`: the code breaks the lower bound.
From the initial zoom 1, one `fitToScreen` with a canvas of 8000 x 6000 in a
container of 540 x 415 (admissible dimensions) sets `zoom = 0.0625 < 0.1`, and a
`zoomIn` after it leaves `zoom = 0.075`, still below 0.1; only the upper bound
5 and the clamping of `zoomIn` and `zoomOut` themselves hold. -/
theorem C12_fitToScreen_below_clamp :
    (init "blank").zoom = 1 ∧
    ZoomAction.Admissible (ZoomAction.fitToScreen 540 415 8000 6000) ∧
    (runZoom (init "blank") [ZoomAction.fitToScreen 540 415 8000 6000]).zoom = 1 / 16 ∧
    ¬ (0.1 ≤ (runZoom (init "blank") [ZoomAction.fitToScreen 540 415 8000 6000]).zoom) ∧
    (runZoom (init "blank")
      [ZoomAction.fitToScreen 540 415 8000 6000, ZoomAction.zoomIn]).zoom = 3 / 40 ∧
    (∀ as : List ZoomAction, (runZoom (init "blank") as).zoom ≤ 5) := by
  have hfit : (runZoom (init "blank") [ZoomAction.fitToScreen 540 415 8000 6000]).zoom
      = 1 / 16 := by
    show min (min (((540 : ℚ) - 40) / 8000) (((415 : ℚ) - 40) / 6000)) 1 = 1 / 16
    norm_num
  have hin : (runZoom (init "blank")
      [ZoomAction.fitToScreen 540 415 8000 6000, ZoomAction.zoomIn]).zoom = 3 / 40 := by
    show min ((runZoom (init "blank")
      [ZoomAction.fitToScreen 540 415 8000 6000]).zoom * 1.2) 5 = 3 / 40
    rw [hfit]
    norm_num
  refine ⟨rfl, ?_, hfit, ?_, hin, fun as => runZoom_zoom_le as _ ?_⟩
  · show (0 : ℚ) ≤ 540 ∧ (0 : ℚ) ≤ 415 ∧ (0 : ℚ) < 8000 ∧ (0 : ℚ) < 6000
    norm_num
  · rw [hfit]
    norm_num
  · show (1 : ℚ) ≤ 5
    norm_num

/-! ## C13: the upload filter -/

/-- Whatever the file, `fileFilter` accepts it or rejects it with the one
validation message. -/
theorem fileFilter_accepts_or_rejects (file : Server.UploadedFile) :
    Server.fileFilter file = Except.ok true ∨
    Server.fileFilter file = Except.error "Solo se permiten archivos de imagen" := by
  unfold Server.fileFilter
  dsimp only
  split
  · exact Or.inl rfl
  · exact Or.inr rfl

/-- Files of the five listed types pass the filter. -/
theorem fileFilter_accepts_listed (file : Server.UploadedFile)
    (hm : file.mimetype ∈ Server.specMimeTypes)
    (he : Server.toLowerCase (Server.extname file.originalname) ∈ Server.specExtensions) :
    Server.fileFilter file = Except.ok true := by
  have h1 : Server.allowedTypesTest file.mimetype = true := by
    simp only [Server.specMimeTypes, List.mem_cons, List.mem_singleton, List.mem_nil_iff,
      or_false] at hm
    rcases hm with h | h | h | h | h <;> rw [h] <;> decide
  have h2 : Server.allowedTypesTest (Server.toLowerCase (Server.extname file.originalname))
      = true := by
    simp only [Server.specExtensions, List.mem_cons, List.mem_singleton, List.mem_nil_iff,
      or_false] at he
    rcases he with h | h | h | h | h | h <;> rw [h] <;> decide
  unfold Server.fileFilter
  simp only [h1, h2, Bool.and_self, if_true]

/-- C13. Upload type validation: the code breaks it. The file named
`notes.pngx` with declared MIME type `text/x-png-notes` has neither an
extension nor a content type among jpeg, png, gif, bmp and webp, yet
`fileFilter` accepts it, because the unanchored expression finds `png` inside
both strings. Files of the listed types are accepted and a file without such a
substring is rejected with `Solo se permiten archivos de imagen`. -/
theorem C13_fileFilter_accepts_substring :
    Server.extname "notes.pngx" = ".pngx" ∧
    ".pngx" ∉ Server.specExtensions ∧
    "text/x-png-notes" ∉ Server.specMimeTypes ∧
    Server.fileFilter { originalname := "notes.pngx", mimetype := "text/x-png-notes" }
      = Except.ok true ∧
    Server.fileFilter { originalname := "photo.PNG", mimetype := "image/png" }
      = Except.ok true ∧
    Server.fileFilter { originalname := "report.pdf", mimetype := "application/pdf" }
      = Except.error "Solo se permiten archivos de imagen" := by
  refine ⟨by decide, by decide, by decide, ?_, ?_, ?_⟩
  · have h : (Server.allowedTypesTest "text/x-png-notes" &&
        Server.allowedTypesTest (Server.toLowerCase (Server.extname "notes.pngx"))) = true := by decide
    unfold Server.fileFilter
    simp only [h, if_true]
  · have h : (Server.allowedTypesTest "image/png" &&
        Server.allowedTypesTest (Server.toLowerCase (Server.extname "photo.PNG"))) = true := by decide
    unfold Server.fileFilter
    simp only [h, if_true]
  · have h : (Server.allowedTypesTest "application/pdf" &&
        Server.allowedTypesTest (Server.toLowerCase (Server.extname "report.pdf"))) = false := by decide
    unfold Server.fileFilter
    simp only [h]
    rfl

/-! ## C14: the file name sent with a transform -/

theorem saveState_currentFilename (e : PhotoEditor) :
    (saveState e).state.currentFilename = e.currentFilename := by
  unfold saveState
  dsimp only
  split
  · split <;> rfl
  · rfl

theorem restoreState_currentFilename (e : PhotoEditor) (i : Int) :
    (restoreState e i).state.currentFilename = e.currentFilename := by
  unfold restoreState
  split <;> rfl

theorem undo_currentFilename (e : PhotoEditor) :
    (undo e).state.currentFilename = e.currentFilename := by
  unfold undo
  split
  · exact restoreState_currentFilename e _
  · rfl

theorem redo_currentFilename (e : PhotoEditor) :
    (redo e).state.currentFilename = e.currentFilename := by
  unfold redo
  split
  · exact restoreState_currentFilename e _
  · rfl

theorem startDrawing_currentFilename (e : PhotoEditor) (m : MouseEnv) :
    (startDrawing e m).state.currentFilename = e.currentFilename := by
  unfold startDrawing
  split <;> rfl

theorem stopDrawing_currentFilename (e : PhotoEditor) :
    (stopDrawing e).state.currentFilename = e.currentFilename := by
  unfold stopDrawing
  split
  · rw [saveState_currentFilename]
  · rfl

theorem loadImageToCanvas_currentFilename (e : PhotoEditor) (imagePath : String)
    (images : String → Option String) :
    (loadImageToCanvas e imagePath images).state.currentFilename = e.currentFilename := by
  unfold loadImageToCanvas
  split
  · rw [saveState_currentFilename]
  · rfl

/-- A transform sends exactly the request it was given and keeps
`currentFilename`. -/
theorem transform_spec (e : PhotoEditor) (req : Request) (r : Reply)
    (images : String → Option String) :
    (transform e req r images).outcome.state.currentFilename = e.currentFilename ∧
    (transform e req r images).request = some req := by
  cases r with
  | threw => exact ⟨rfl, rfl⟩
  | json success processedImage error =>
    cases success with
    | false => exact ⟨rfl, rfl⟩
    | true => exact ⟨loadImageToCanvas_currentFilename e processedImage images, rfl⟩

theorem applyFilter_spec (e : PhotoEditor) (filter : String) (value : Option String)
    (r : Reply) (images : String → Option String) :
    (applyFilter e filter value r images).outcome.state.currentFilename = e.currentFilename ∧
    (∀ req, (applyFilter e filter value r images).request = some req →
      e.currentFilename = some req.filename) := by
  unfold applyFilter
  cases hf : e.currentFilename with
  | none => exact ⟨hf.symm ▸ rfl, fun req h => Option.noConfusion h⟩
  | some f =>
    by_cases hempty : f = ""
    · simp only [hempty, if_true]
      exact ⟨by rw [← hempty, hf], fun req h => Option.noConfusion h⟩
    · simp only [if_neg hempty]
      obtain ⟨h1, h2⟩ := transform_spec e (Request.filter f filter value) r images
      refine ⟨by rw [h1, hf], fun req h => ?_⟩
      rw [h2] at h
      rw [← Option.some.inj h]
      rfl

theorem resizeImage_spec (e : PhotoEditor) (width height : String)
    (r : Reply) (images : String → Option String) :
    (resizeImage e width height r images).outcome.state.currentFilename = e.currentFilename ∧
    (∀ req, (resizeImage e width height r images).request = some req →
      e.currentFilename = some req.filename) := by
  unfold resizeImage
  cases hf : e.currentFilename with
  | none => exact ⟨hf.symm ▸ rfl, fun req h => Option.noConfusion h⟩
  | some f =>
    by_cases hempty : f = ""
    · simp only [hempty, if_true]
      exact ⟨by rw [← hempty, hf], fun req h => Option.noConfusion h⟩
    · simp only [if_neg hempty]
      obtain ⟨h1, h2⟩ := transform_spec e (Request.resize f width height) r images
      refine ⟨by rw [h1, hf], fun req h => ?_⟩
      rw [h2] at h
      rw [← Option.some.inj h]
      rfl

theorem rotateImage_spec (e : PhotoEditor) (angle : Int)
    (r : Reply) (images : String → Option String) :
    (rotateImage e angle r images).outcome.state.currentFilename = e.currentFilename ∧
    (∀ req, (rotateImage e angle r images).request = some req →
      e.currentFilename = some req.filename) := by
  unfold rotateImage
  cases hf : e.currentFilename with
  | none => exact ⟨hf.symm ▸ rfl, fun req h => Option.noConfusion h⟩
  | some f =>
    by_cases hempty : f = ""
    · simp only [hempty, if_true]
      exact ⟨by rw [← hempty, hf], fun req h => Option.noConfusion h⟩
    · simp only [if_neg hempty]
      obtain ⟨h1, h2⟩ := transform_spec e (Request.rotate f angle) r images
      refine ⟨by rw [h1, hf], fun req h => ?_⟩
      rw [h2] at h
      rw [← Option.some.inj h]
      rfl

/-- Recording a transform whose request carries the current file name keeps
every recorded request on that file name. -/
theorem Session.record_requests (cf : Option String) (s : Session) (x : Sent)
    (hs : ∀ req ∈ s.requests, cf = some req.filename)
    (hx : ∀ req, x.request = some req → cf = some req.filename) :
    ∀ req ∈ (s.record x).requests, cf = some req.filename := by
  intro req hreq
  rcases List.mem_append.mp hreq with h | h
  · exact hs req h
  · exact hx req (Option.mem_toList.mp h)

/-- One event changes neither `currentFilename` nor the file name that the
recorded requests carry. -/
theorem Event.apply_filename (images : String → Option String) (cf : Option String)
    (s : Session) (ev : Event)
    (h : s.editor.currentFilename = cf ∧ ∀ req ∈ s.requests, cf = some req.filename) :
    (ev.apply images s).editor.currentFilename = cf ∧
    ∀ req ∈ (ev.apply images s).requests, cf = some req.filename := by
  obtain ⟨h1, h2⟩ := h
  cases ev with
  | applyFilter filter value r =>
    obtain ⟨a, b⟩ := applyFilter_spec s.editor filter value r images
    exact ⟨a.trans h1, Session.record_requests cf s _ h2 (fun req hr => h1 ▸ b req hr)⟩
  | resizeImage width height r =>
    obtain ⟨a, b⟩ := resizeImage_spec s.editor width height r images
    exact ⟨a.trans h1, Session.record_requests cf s _ h2 (fun req hr => h1 ▸ b req hr)⟩
  | rotateImage angle r =>
    obtain ⟨a, b⟩ := rotateImage_spec s.editor angle r images
    exact ⟨a.trans h1, Session.record_requests cf s _ h2 (fun req hr => h1 ▸ b req hr)⟩
  | setTool tool => exact ⟨h1, h2⟩
  | startDrawing m => exact ⟨(startDrawing_currentFilename s.editor m).trans h1, h2⟩
  | stopDrawing => exact ⟨(stopDrawing_currentFilename s.editor).trans h1, h2⟩
  | paint c => exact ⟨h1, h2⟩
  | saveState => exact ⟨(saveState_currentFilename s.editor).trans h1, h2⟩
  | undo => exact ⟨(undo_currentFilename s.editor).trans h1, h2⟩
  | redo => exact ⟨(redo_currentFilename s.editor).trans h1, h2⟩
  | restoreState i => exact ⟨(restoreState_currentFilename s.editor i).trans h1, h2⟩

theorem runEvents_filename (images : String → Option String) (cf : Option String)
    (evs : List Event) (s : Session)
    (h : s.editor.currentFilename = cf ∧ ∀ req ∈ s.requests, cf = some req.filename) :
    (runEvents images s evs).editor.currentFilename = cf ∧
    ∀ req ∈ (runEvents images s evs).requests, cf = some req.filename := by
  induction evs generalizing s with
  | nil => exact h
  | cons ev evs ih => exact ih (ev.apply images s) (Event.apply_filename images cf s ev h)

theorem uploadFile_success_currentFilename (e : PhotoEditor) (filename path error : String)
    (images : String → Option String) :
    (uploadFile e (UploadReply.json true filename path error) images).state.currentFilename
      = some filename := by
  show (loadImageToCanvas { e with currentFilename := some filename } path
    images).state.currentFilename = some filename
  rw [loadImageToCanvas_currentFilename]

/-- C14. Transforms never advance the server-side resource: `applyFilter`,
`resizeImage`, `rotateImage`, `saveState`, `undo`, `redo` and `restoreState` all
leave `currentFilename` unchanged; `uploadFile` sets it to the returned file
name when the upload succeeds and leaves it alone otherwise. Hence after one
successful upload returning `filename`, and after any sequence of transforms
(whatever their replies), strokes, tool changes, commits, undos, redos and
restores, `currentFilename` is still `filename` and every transform request
that was sent carries `filename`. -/
theorem C14_transforms_keep_filename (e : PhotoEditor) (images : String → Option String) :
    (∀ (filter : String) (value : Option String) (r : Reply),
      (applyFilter e filter value r images).outcome.state.currentFilename
        = e.currentFilename) ∧
    (∀ (width height : String) (r : Reply),
      (resizeImage e width height r images).outcome.state.currentFilename
        = e.currentFilename) ∧
    (∀ (angle : Int) (r : Reply),
      (rotateImage e angle r images).outcome.state.currentFilename = e.currentFilename) ∧
    (saveState e).state.currentFilename = e.currentFilename ∧
    (undo e).state.currentFilename = e.currentFilename ∧
    (redo e).state.currentFilename = e.currentFilename ∧
    (∀ i : Int, (restoreState e i).state.currentFilename = e.currentFilename) ∧
    (∀ filename path error : String,
      (uploadFile e (UploadReply.json true filename path error) images).state.currentFilename
        = some filename ∧
      (uploadFile e (UploadReply.json false filename path error) images).state.currentFilename
        = e.currentFilename) ∧
    (uploadFile e UploadReply.threw images).state.currentFilename = e.currentFilename ∧
    (∀ (filename path error : String) (evs : List Event),
      (runEvents images
        { editor := (uploadFile e (UploadReply.json true filename path error) images).state
          requests := [] } evs).editor.currentFilename = some filename ∧
      ∀ req ∈ (runEvents images
        { editor := (uploadFile e (UploadReply.json true filename path error) images).state
          requests := [] } evs).requests, req.filename = filename) := by
  refine ⟨fun filter value r => (applyFilter_spec e filter value r images).1,
    fun width height r => (resizeImage_spec e width height r images).1,
    fun angle r => (rotateImage_spec e angle r images).1,
    saveState_currentFilename e, undo_currentFilename e, redo_currentFilename e,
    fun i => restoreState_currentFilename e i,
    fun filename path error =>
      ⟨uploadFile_success_currentFilename e filename path error images, rfl⟩,
    rfl, fun filename path error evs => ?_⟩
  obtain ⟨h1, h2⟩ := runEvents_filename images (some filename) evs
    { editor := (uploadFile e (UploadReply.json true filename path error) images).state
      requests := [] }
    ⟨uploadFile_success_currentFilename e filename path error images,
      fun req hreq => absurd hreq (List.not_mem_nil req)⟩
  exact ⟨h1, fun req hreq => (Option.some.inj (h2 req hreq)).symm⟩

theorem C14_transforms_keep_filename_witness :
    (runEvents exImages
      { editor := (uploadFile (init "blank") (UploadReply.json true "a.png" "/uploads/a.png" "")
          exImages).state
        requests := [] }
      [Event.applyFilter "sepia" none (Reply.json true "/processed/filtered-1-a.png" ""),
        Event.undo,
        Event.rotateImage 90 (Reply.json true "/processed/rotated-2-a.png" "")]).requests
      = [Request.filter "a.png" "sepia" none, Request.rotate "a.png" 90] ∧
    (∀ req ∈ (runEvents exImages
      { editor := (uploadFile (init "blank") (UploadReply.json true "a.png" "/uploads/a.png" "")
          exImages).state
        requests := [] }
      [Event.applyFilter "sepia" none (Reply.json true "/processed/filtered-1-a.png" ""),
        Event.undo,
        Event.rotateImage 90 (Reply.json true "/processed/rotated-2-a.png" "")]).requests,
      req.filename = "a.png") :=
  ⟨by decide,
    ((C14_transforms_keep_filename (init "blank") exImages).2.2.2.2.2.2.2.2.2
      "a.png" "/uploads/a.png" ""
      [Event.applyFilter "sepia" none (Reply.json true "/processed/filtered-1-a.png" ""),
        Event.undo,
        Event.rotateImage 90 (Reply.json true "/processed/rotated-2-a.png" "")]).2⟩
